import Mathlib

/-!
Formal model of the btcauto trading core.

This file gives a shallow embedding of the decision core of the repository
(position manager, exit state machine, position sizing, order submission,
leader scanner, entry scoring engine) and proves properties about it.

Modelling conventions:
* Python floats are modelled as rationals (`ℚ`).  `float('nan')` values that
  arise from pandas operations on insufficient history are modelled as `none`
  in `Option ℚ`; comparisons against such an undefined value are `false`,
  mirroring IEEE NaN comparison semantics used by the Python code.
* Python `round(x, n)` is banker's rounding (round half to even); it is
  modelled exactly on rationals.
* The in-memory position dictionary (`PositionManager._positions`) is
  modelled as a list of `Position` records keyed by ticker, with dictionary
  assignment/removal semantics made explicit.
* Network calls (exchange client, order book) are modelled as explicit
  inputs: order submission takes the sequence of per-attempt responses, the
  scanner takes the fetched OHLCV data and the order-book-derived liquidity
  score (whose computation uses `log10` over live order-book data) as inputs.
-/

namespace Btcauto

/-- Banker's rounding (round half to even) of a rational to an integer,
modelling Python's builtin `round(x)`. -/
def roundHalfEven (q : ℚ) : ℤ :=
  let f := q - ⌊q⌋
  if f < 1/2 then ⌊q⌋
  else if 1/2 < f then ⌊q⌋ + 1
  else if ⌊q⌋ % 2 = 0 then ⌊q⌋ else ⌊q⌋ + 1

/-- Python `round(q, n)` as a rational (round half to even at `n` decimal
digits). -/
def roundTo (n : ℕ) (q : ℚ) : ℚ := (roundHalfEven (q * 10 ^ n) : ℚ) / 10 ^ n

/-! ### Configuration constants

Constants of `TradingConfig` in `config.py` that the modelled core reads. -/

/-- `STOP_LOSS_RATE = -0.10` -/
def stopLossRate : ℚ := -1/10

/-- `TRAILING_STOP_RATE = -0.10` -/
def trailingStopRate : ℚ := -1/10

/-- `TRAILING_ACTIVATION_RATE = 0.05` -/
def trailingActivationRate : ℚ := 1/20

/-- `MAX_CONCURRENT_POSITIONS = 5` -/
def maxConcurrentPositions : ℕ := 5

/-- `MAX_SINGLE_POSITION_RATIO = 0.20` -/
def maxSinglePositionRatio : ℚ := 1/5

/-- `MAX_INVESTED_RATIO = 0.80` -/
def maxInvestedRatio : ℚ := 4/5

/-- `MAX_RISK_PER_TRADE = 0.02` -/
def maxRiskPerTrade : ℚ := 1/50

/-- `MIN_ORDER_KRW = 5000` -/
def minOrderKrw : ℚ := 5000

/-- `LEADER_TOP_N = 5` -/
def leaderTopN : ℕ := 5

/-- `VOLUME_SURGE_WINDOW = 20` -/
def volumeSurgeWindow : ℕ := 20

/-- `VOLUME_SURGE_MIN_RATIO = 1.5` -/
def volumeSurgeMinRatio : ℚ := 3/2

/-- `EMA_FAST = 9` -/
def emaFast : ℕ := 9

/-- `EMA_MID = 21` -/
def emaMid : ℕ := 21

/-- `EMA_SLOW = 50` -/
def emaSlow : ℕ := 50

/-- `RSI_PERIOD = 14` -/
def rsiPeriod : ℕ := 14

/-- `RSI_ENTRY_MIN = 35.0` -/
def rsiEntryMin : ℚ := 35

/-- `RSI_ENTRY_MAX = 65.0` -/
def rsiEntryMax : ℚ := 65

/-- `ADX_PERIOD = 14` -/
def adxPeriod : ℕ := 14

/-- `ADX_THRESHOLD = 20.0` -/
def adxThreshold : ℚ := 20

/-- `ATR_PERIOD = 14` -/
def atrPeriod : ℕ := 14

/-- `ENTRY_SCORE_THRESHOLD = 70` -/
def entryScoreThreshold : ℕ := 70

/-! ### Position records (`position_manager.py`) -/

/-- The `Position` dataclass.  `entry_time` is a Unix timestamp modelled as a
rational. -/
structure Position where
  ticker : String
  entry_price : ℚ
  quantity : ℚ
  entry_time : ℚ
  invested_krw : ℚ
  stop_loss_price : ℚ
  peak_price : ℚ
  trailing_active : Bool
  entry_score : ℚ
  leader_score : ℚ
  deriving DecidableEq, Repr

/-- `Position.update_peak`: raise the recorded peak when the current price
exceeds it, and activate the trailing stop once the gain over the entry price
reaches `TRAILING_ACTIVATION_RATE`. -/
def update_peak (p : Position) (current_price : ℚ) : Position :=
  let p1 := if p.peak_price < current_price
            then { p with peak_price := current_price } else p
  if ¬ p1.trailing_active ∧ trailingActivationRate ≤ current_price / p.entry_price - 1
  then { p1 with trailing_active := true } else p1

/-- `Position.trailing_stop_price`: the trailing stop level relative to the
recorded peak. -/
def trailing_stop_price (p : Position) : ℚ := p.peak_price * (1 + trailingStopRate)

/-- Exit reasons produced by `PositionManager.check_exit`.  The source
returns formatted strings; only their kind is relevant here, so they are
modelled as tags. -/
inductive ExitReason where
  | stopLoss
  | trailingStop
  deriving DecidableEq, Repr

/-- `PositionManager.check_exit`: update the peak/trailing state, then check
the fixed stop loss first and the trailing stop second.  Returns the mutated
position (the source mutates it in place) together with the optional exit
reason. -/
def check_exit (p : Position) (current_price : ℚ) : Position × Option ExitReason :=
  let p' := update_peak p current_price
  if current_price ≤ p'.stop_loss_price then (p', some .stopLoss)
  else if p'.trailing_active ∧ current_price ≤ trailing_stop_price p'
  then (p', some .trailingStop)
  else (p', none)

/-- Tickers of a position set (the keys of `PositionManager._positions`). -/
def tickers (ps : List Position) : List String := ps.map (·.ticker)

/-- Python dictionary assignment `self._positions[ticker] = pos`: replace the
entry with the same key in place, else append. -/
def dictInsert (ps : List Position) (pos : Position) : List Position :=
  if ps.any (fun q => q.ticker == pos.ticker)
  then ps.map (fun q => if q.ticker == pos.ticker then pos else q)
  else ps ++ [pos]

/-- `PositionManager.open_position`: build the new position (stop loss fixed
at `entry_price * (1 + STOP_LOSS_RATE)`, peak initialised to the entry
price, trailing inactive), store it under its ticker, and return it. -/
def open_position (ps : List Position) (ticker : String)
    (entry_price quantity invested_krw : ℚ) (now entry_score leader_score : ℚ) :
    List Position × Position :=
  let pos : Position :=
    { ticker := ticker
      entry_price := entry_price
      quantity := quantity
      entry_time := now
      invested_krw := invested_krw
      stop_loss_price := entry_price * (1 + stopLossRate)
      peak_price := entry_price
      trailing_active := false
      entry_score := entry_score
      leader_score := leader_score }
  (dictInsert ps pos, pos)

/-- The summary dictionary returned by `PositionManager.close_position`. -/
structure CloseSummary where
  ticker : String
  entry_price : ℚ
  exit_price : ℚ
  pnl_rate : ℚ
  pnl_krw : ℚ
  invested_krw : ℚ
  peak_price : ℚ
  hold_hours : ℚ
  reason : ExitReason
  deriving DecidableEq, Repr

/-- Result of `PositionManager.close_position`: the position set afterwards,
the optional summary, and whether the state file was rewritten (`_save`
was called). -/
structure CloseResult where
  positions : List Position
  summary : Option CloseSummary
  saved : Bool
  deriving DecidableEq, Repr

/-- `PositionManager.close_position`: pop the ticker's position; when absent
return `None` without touching anything (no `_save`).  When present, compute
the PnL summary (`pnl_rate` is `round(rate*100, 2)`, `pnl_krw` is
`round(invested*rate, 0)`, `hold_hours` is `round(hours, 2)`) and persist. -/
def close_position (ps : List Position) (ticker : String) (exit_price : ℚ)
    (reason : ExitReason) (now : ℚ) : CloseResult :=
  match ps.find? (fun p => p.ticker == ticker) with
  | none => ⟨ps, none, false⟩
  | some pos =>
    let ps' := ps.eraseP (fun p => p.ticker == ticker)
    let pnl_rate := exit_price / pos.entry_price - 1
    ⟨ps',
      some
        { ticker := ticker
          entry_price := pos.entry_price
          exit_price := exit_price
          pnl_rate := roundTo 2 (pnl_rate * 100)
          pnl_krw := roundTo 0 (pos.invested_krw * pnl_rate)
          invested_krw := pos.invested_krw
          peak_price := pos.peak_price
          hold_hours := roundTo 2 ((now - pos.entry_time) / 3600)
          reason := reason },
      true⟩

/-- `PositionManager.calc_position_size`, translated clause by clause from
the source. -/
def calc_position_size (ps : List Position) (ticker : String)
    (current_price atr total_portfolio_krw combined_confidence : ℚ) : ℚ :=
  if maxConcurrentPositions ≤ ps.length then 0
  else if ps.any (fun q => q.ticker == ticker) then 0
  else
    let total_invested := (ps.map (·.invested_krw)).sum
    let available := total_portfolio_krw * maxInvestedRatio - total_invested
    if available < minOrderKrw then 0
    else
      let atr_pct0 := if 0 < current_price then atr / current_price else 1/20
      let atr_pct := if atr_pct0 ≤ 0 then 1/20 else atr_pct0
      let base_size := total_portfolio_krw * maxRiskPerTrade / atr_pct
      let conf_mult : ℚ :=
        if 85 ≤ combined_confidence then 1
        else if 75 ≤ combined_confidence then 3/4
        else 1/2
      let adjusted := base_size * conf_mult
      let max_single := total_portfolio_krw * maxSinglePositionRatio
      let size := max 0 (min adjusted (min max_single available))
      if size < minOrderKrw then 0 else (roundHalfEven size : ℚ)

/-- Modelled from the spec wording of §4.4 (the sizing rules as the claim
states them), for comparison with the source translation
`calc_position_size`. -/
def calcPositionSizeSpec (ps : List Position) (ticker : String)
    (current_price atr total_portfolio_krw combined_confidence : ℚ) : ℚ :=
  if maxConcurrentPositions ≤ ps.length then 0
  else if ps.any (fun q => q.ticker == ticker) then 0
  else
    let available := total_portfolio_krw * maxInvestedRatio
        - (ps.map (·.invested_krw)).sum
    if available < minOrderKrw then 0
    else
      let atr_pct := if current_price ≤ 0 ∨ atr / current_price ≤ 0
                     then 1/20 else atr / current_price
      let mult : ℚ :=
        if 85 ≤ combined_confidence then 1
        else if 75 ≤ combined_confidence then 3/4
        else 1/2
      let size := max 0 (min (total_portfolio_krw * maxRiskPerTrade / atr_pct * mult)
          (min (total_portfolio_krw * maxSinglePositionRatio) available))
      if size < minOrderKrw then 0 else (roundHalfEven size : ℚ)

/-! ### Order execution (`order_executor.py`) -/

/-- Failure of a single live order attempt: either the exchange call raised
(a call-level fault), or its response had no recognisable `uuid` (the source
converts that case to a `ValueError` and handles it identically). -/
inductive AttemptErr where
  | callFault (msg : String)
  | abnormalResp
  deriving DecidableEq, Repr

/-- The error carried by a failed `OrderResult`.  The source stores message
strings; only their kind and payload matter here. -/
inductive OrderError where
  | minNotional
  | finalFail (last : Option AttemptErr)
  deriving DecidableEq, Repr

/-- One live exchange response, as seen by `_retry`: a raised exception, a
falsy or uuid-less response, or a response carrying an order uuid. -/
inductive Outcome where
  | fault (msg : String)
  | respMissing
  | respUuid (uuid : String)
  deriving DecidableEq, Repr

/-- The `OrderResult` dataclass. -/
structure OrderResult where
  success : Bool
  ticker : String
  side : String
  price : ℚ
  quantity : ℚ
  amount_krw : ℚ
  order_id : Option String
  error : Option OrderError
  dry_run : Bool
  deriving DecidableEq, Repr

/-- `OrderExecutor._MAX_RETRIES = 3` -/
def maxRetries : ℕ := 3

/-- `OrderExecutor._BASE_DELAY = 1.0` (seconds) -/
def baseDelay : ℚ := 1

/-- Body of one `_retry` attempt: a response with a `uuid` succeeds; any
other outcome becomes an error handled by the retry loop. -/
def attemptResult : Outcome → Except AttemptErr String
  | .fault m => .error (.callFault m)
  | .respMissing => .error .abnormalResp
  | .respUuid u => .ok u

/-- The retry loop of `_retry` over the successive attempt outcomes.
Returns the uuid of the first successful attempt (if any), the last error
seen, and the list of backoff delays actually slept
(`_BASE_DELAY * 2^(attempt-1)`, slept only when another attempt follows). -/
def retryAux : List Outcome → ℕ → Option AttemptErr →
    Option String × Option AttemptErr × List ℚ
  | [], _, lastErr => (none, lastErr, [])
  | o :: rest, attempt, lastErr =>
    match attemptResult o with
    | .ok u => (some u, lastErr, [])
    | .error e =>
      if attempt < maxRetries then
        let r := retryAux rest (attempt + 1) (some e)
        (r.1, r.2.1, baseDelay * 2 ^ (attempt - 1) :: r.2.2)
      else (none, some e, [])

/-- `OrderExecutor._retry`: up to `_MAX_RETRIES` attempts (outcome of attempt
`i` is `outcomes i`), exponential backoff between attempts, failure result
carrying the last error after exhaustion.  The `amount_krw` of the result is
`amount_krw or price * sell_qty` as in the source. -/
def runRetry (side ticker : String) (price qty amount_krw sell_qty : ℚ)
    (outcomes : ℕ → Outcome) : OrderResult × List ℚ :=
  let r := retryAux [outcomes 1, outcomes 2, outcomes 3] 1 none
  let amount := if amount_krw = 0 then price * sell_qty else amount_krw
  match r.1 with
  | some u =>
    ({ success := true, ticker := ticker, side := side, price := price,
       quantity := qty, amount_krw := amount, order_id := some u,
       error := none, dry_run := false }, r.2.2)
  | none =>
    ({ success := false, ticker := ticker, side := side, price := price,
       quantity := qty, amount_krw := amount, order_id := none,
       error := some (.finalFail r.2.1), dry_run := false }, r.2.2)

/-- `OrderExecutor.buy`: reject below the minimum order notional, return a
synthetic success in dry-run mode, otherwise submit with retry.  The second
component is the list of backoff delays slept. -/
def buy (dry_run : Bool) (ticker : String) (amount_krw current_price : ℚ)
    (outcomes : ℕ → Outcome) : OrderResult × List ℚ :=
  if amount_krw < minOrderKrw then
    ({ success := false, ticker := ticker, side := "buy", price := current_price,
       quantity := 0, amount_krw := amount_krw, order_id := none,
       error := some .minNotional, dry_run := false }, [])
  else
    let est_qty := if 0 < current_price then amount_krw / current_price else 0
    if dry_run then
      ({ success := true, ticker := ticker, side := "buy", price := current_price,
         quantity := est_qty, amount_krw := amount_krw,
         order_id := some "dry-run-buy", error := none, dry_run := true }, [])
    else runRetry "buy" ticker current_price est_qty amount_krw 0 outcomes

/-- `OrderExecutor.sell`: note that unlike `buy` there is no minimum-notional
check here; dry-run returns a synthetic success, live mode submits with
retry. -/
def sell (dry_run : Bool) (ticker : String) (quantity current_price : ℚ)
    (outcomes : ℕ → Outcome) : OrderResult × List ℚ :=
  let amount_krw := quantity * current_price
  if dry_run then
    ({ success := true, ticker := ticker, side := "sell", price := current_price,
       quantity := quantity, amount_krw := amount_krw,
       order_id := some "dry-run-sell", error := none, dry_run := true }, [])
  else runRetry "sell" ticker current_price quantity 0 quantity outcomes

/-! ### Exit monitor (`exit_monitor.py`) -/

/-- The exit price actually used by the monitor:
`exit_price if exit_price else current_price`, so a failed sell (`None`) or
a falsy `0.0` fill price falls back to the observed price. -/
def actual_exit_price (sell_result : Option ℚ) (current_price : ℚ) : ℚ :=
  match sell_result with
  | some p => if p = 0 then current_price else p
  | none => current_price

/-- One iteration of the monitor loop body for a single position `pos`
(which is an element of the position set `ps`; the source iterates over
`get_all_positions()` and `check_exit` mutates the shared `Position` object,
modelled by replacing it in the set).  `price?` is the fetched current price
(`none` when unavailable, which skips the position), `sell_result` is the
fill price returned by the sell callback (`none` on a failed sell). -/
def monitor_tick_position (ps : List Position) (pos : Position)
    (price? : Option ℚ) (sell_result : Option ℚ) (now : ℚ) :
    List Position × Option CloseSummary :=
  match price? with
  | none => (ps, none)
  | some current_price =>
    let r := check_exit pos current_price
    let ps' := ps.map (fun q => if q.ticker == pos.ticker then r.1 else q)
    match r.2 with
    | none => (ps', none)
    | some reason =>
      let c := close_position ps' pos.ticker
          (actual_exit_price sell_result current_price) reason now
      (c.positions, c.summary)

/-! ### OHLCV data and shared series helpers -/

/-- One OHLCV candle.  The `open` column is called `opn` because `open` is a
Lean keyword. -/
structure Candle where
  opn : ℚ
  high : ℚ
  low : ℚ
  close : ℚ
  volume : ℚ
  deriving DecidableEq, Repr

/-- Pandas `iloc[-k]` (for `k ≥ 1`): `none` models the `IndexError` raised
when the series is shorter than `k`. -/
def ilast (k : ℕ) (xs : List α) : Option α :=
  if 1 ≤ k ∧ k ≤ xs.length then xs[xs.length - k]? else none

/-! ### Leader scanner (`leader_scanner.py`) -/

/-- `_calc_volume_score`: volume-surge score (0..100) and the surge ratio of
the latest volume over the mean of the preceding `VOLUME_SURGE_WINDOW`
candles. -/
def calcVolumeScore (df : List Candle) : ℚ × ℚ :=
  let window := volumeSurgeWindow
  if df.length < window + 1 then (0, 0)
  else
    let vols := df.map (·.volume)
    let current_vol := vols.getLastD 0
    let avg_vol := ((vols.drop (vols.length - (window + 1))).take window).sum / window
    if avg_vol ≤ 0 then (0, 0)
    else
      let ratio := current_vol / avg_vol
      let score := min 100 (ratio / 3 * 100)
      (max 0 score, ratio)

/-- `_calc_momentum_score`: blended 5-candle and 20-candle rate of change,
normalised from the ±30% range to 0..100. -/
def calcMomentumScore (df : List Candle) : ℚ :=
  let close := df.map (·.close)
  if close.length < 22 then 0
  else
    let last := close.getLastD 0
    let short_roc := (last / (ilast 6 close).getD 0 - 1) * 100
    let long_roc := (last / (ilast 21 close).getD 0 - 1) * 100
    let combined := short_roc * (6/10) + long_roc * (4/10)
    min 100 (max 0 ((combined + 30) / 60 * 100))

/-- `_calc_rs_score`: 20-candle return of the coin minus that of the BTC
benchmark, normalised from the ±20%p range to 0..100; neutral 50 when either
series is too short. -/
def calcRsScore (df btc : List Candle) : ℚ :=
  let period := 20
  if df.length < period + 1 ∨ btc.length < period + 1 then 50
  else
    let coin_ret := (df.map (·.close)).getLastD 0
        / (ilast (period + 1) (df.map (·.close))).getD 0 - 1
    let btc_ret := (btc.map (·.close)).getLastD 0
        / (ilast (period + 1) (btc.map (·.close))).getD 0 - 1
    let rs_diff := (coin_ret - btc_ret) * 100
    min 100 (max 0 ((rs_diff + 20) / 40 * 100))

/-- One scan candidate as the loop body of `scan_market_leaders` sees it: a
ticker that passed the pre-filters with a successfully fetched OHLCV frame.
`liquidity` is the value of `_calc_liquidity_score(ticker)`, taken as an
input because it reads the live order book and uses `log10`. -/
structure RawCandidate where
  ticker : String
  df : List Candle
  liquidity : ℚ
  deriving DecidableEq, Repr

/-- One entry of the list returned by `scan_market_leaders`. -/
structure LeaderEntry where
  ticker : String
  composite_score : ℚ
  volume_score : ℚ
  momentum_score : ℚ
  rs_score : ℚ
  liquidity_score : ℚ
  volume_ratio : ℚ
  latest_close : ℚ
  deriving DecidableEq, Repr

/-- The unrounded composite leader score
`vol*0.35 + mom*0.30 + rs*0.20 + liq*0.15` of a candidate.  `btc` is the
benchmark frame (`none` when its fetch failed, which fixes `rs = 50`). -/
def rawComposite (btc : Option (List Candle)) (c : RawCandidate) : ℚ :=
  (calcVolumeScore c.df).1 * (35/100) + calcMomentumScore c.df * (30/100)
    + (match btc with | some b => calcRsScore c.df b | none => 50) * (20/100)
    + c.liquidity * (15/100)

/-- Loop body of `scan_market_leaders` for one candidate: skip it entirely
when the volume surge ratio is below `VOLUME_SURGE_MIN_RATIO`, else emit its
result row (scores rounded to 2 decimals). -/
def scoreCandidate (btc : Option (List Candle)) (c : RawCandidate) :
    Option LeaderEntry :=
  let vr := calcVolumeScore c.df
  if vr.2 < volumeSurgeMinRatio then none
  else
    some
      { ticker := c.ticker
        composite_score := roundTo 2 (rawComposite btc c)
        volume_score := roundTo 2 vr.1
        momentum_score := roundTo 2 (calcMomentumScore c.df)
        rs_score := roundTo 2
          (match btc with | some b => calcRsScore c.df b | none => 50)
        liquidity_score := roundTo 2 c.liquidity
        volume_ratio := roundTo 2 vr.2
        latest_close := (c.df.map (·.close)).getLastD 0 }

/-- Ordering used by `results.sort(key=composite_score, reverse=True)`:
descending by (rounded) composite score.  Python's sort is stable, as is
`List.insertionSort` with this relation. -/
def leaderGe (a b : LeaderEntry) : Prop := b.composite_score ≤ a.composite_score

instance : DecidableRel leaderGe := fun a b =>
  inferInstanceAs (Decidable (b.composite_score ≤ a.composite_score))

instance : IsTotal LeaderEntry leaderGe := ⟨fun a b => le_total b.composite_score a.composite_score⟩

instance : IsTrans LeaderEntry leaderGe := ⟨fun _ _ _ h1 h2 => le_trans h2 h1⟩

/-- `scan_market_leaders` from the per-candidate loop onward: score the
candidates in scan order (dropping sub-surge ones), sort stably by composite
score descending, and keep the top `LEADER_TOP_N`. -/
def scan_market_leaders (btc : Option (List Candle)) (cands : List RawCandidate) :
    List LeaderEntry :=
  let results := cands.filterMap (scoreCandidate btc)
  (results.insertionSort leaderGe).take leaderTopN

/-! ### Indicator library (`entry_engine.py`)

Series are lists aligned with the input frame; `none` entries model NaN.
Comparisons involving NaN are false; arithmetic involving NaN is NaN.
Division by zero is modelled as NaN: in the one pipeline position where
pandas would produce `±inf` instead (a directional index over an all-zero
true range), that infinity is immediately absorbed into NaN by the
`DX = |+DI−(−DI)|/(+DI+(−DI))` step, so the modelled series agree where they
are read. -/

/-- NaN-propagating addition. -/
def oadd : Option ℚ → Option ℚ → Option ℚ
  | some a, some b => some (a + b)
  | _, _ => none

/-- NaN-propagating subtraction. -/
def osub : Option ℚ → Option ℚ → Option ℚ
  | some a, some b => some (a - b)
  | _, _ => none

/-- NaN-propagating multiplication. -/
def omul : Option ℚ → Option ℚ → Option ℚ
  | some a, some b => some (a * b)
  | _, _ => none

/-- NaN-propagating division; division by zero is undefined (see the section
comment). -/
def odiv : Option ℚ → Option ℚ → Option ℚ
  | some a, some b => if b = 0 then none else some (a / b)
  | _, _ => none

/-- NaN-propagating absolute value. -/
def oabs (x : Option ℚ) : Option ℚ := x.map (fun a => |a|)

/-- Strict `<` with NaN comparing false, as in Python/NumPy. -/
def oltB : Option ℚ → Option ℚ → Bool
  | some a, some b => a < b
  | _, _ => false

/-- Non-strict `≤` with NaN comparing false. -/
def oleB : Option ℚ → Option ℚ → Bool
  | some a, some b => a ≤ b
  | _, _ => false

/-- Pandas `Series.replace(0, np.nan)` on one element. -/
def replace0 (x : Option ℚ) : Option ℚ := if x = some 0 then none else x

/-- Pandas `Series.diff()`: NaN first, then successive differences. -/
def diffQ (xs : List ℚ) : List (Option ℚ) :=
  match xs with
  | [] => []
  | _ :: rest => none :: List.zipWith (fun b a => some (b - a)) rest xs

/-- Pandas `Series.shift()`: NaN first, then the previous values. -/
def shiftQ (xs : List ℚ) : List (Option ℚ) :=
  match xs with
  | [] => []
  | _ :: _ => none :: xs.dropLast.map some

/-- One step of the pandas `ewm(adjust=False, ignore_na=False).mean()`
recurrence.  The state is the current weighted mean together with the decayed
weight of the history (pandas' `old_wt`, reset to 1 after each valid
observation and multiplied by `1-α` per position). -/
def ewmStep (a : ℚ) (st : Option (ℚ × ℚ)) (x : Option ℚ) : Option (ℚ × ℚ) :=
  match st, x with
  | none, none => none
  | none, some v => some (v, 1)
  | some (y, w), none => some (y, w * (1 - a))
  | some (y, w), some v =>
    let w' := w * (1 - a)
    some ((w' * y + a * v) / (w' + a), 1)

/-- Pandas `Series.ewm(alpha=a, min_periods=m, adjust=False).mean()`:
positions are NaN until `m` valid observations have been seen; at later NaN
inputs the carried mean is emitted. -/
def ewmMeanAux (a : ℚ) (m : ℕ) : List (Option ℚ) → Option (ℚ × ℚ) → ℕ → List (Option ℚ)
  | [], _, _ => []
  | x :: xs, st, nobs =>
    let nobs' := if x.isSome then nobs + 1 else nobs
    let st' := ewmStep a st x
    let out := match st' with
      | some (y, _) => if m ≤ nobs' then some y else none
      | none => none
    out :: ewmMeanAux a m xs st' nobs'

/-- Entry point for the Wilder-style smoothed means used by RSI/ADX/ATR. -/
def ewmMean (a : ℚ) (m : ℕ) (xs : List (Option ℚ)) : List (Option ℚ) :=
  ewmMeanAux a m xs none 0

/-- `_ema`: `ewm(span=span, adjust=False).mean()` on a NaN-free series,
seeded from the first value with `α = 2/(span+1)`. -/
def ema (span : ℕ) (xs : List ℚ) : List ℚ :=
  match xs with
  | [] => []
  | x :: rest =>
    let a : ℚ := 2 / ((span : ℚ) + 1)
    x :: (rest.scanl (fun y v => (1 - a) * y + a * v) x).tail

/-- `_macd` histogram: `EMA(12) − EMA(26)` minus its own `EMA(9)`. -/
def macdHist (close : List ℚ) : List ℚ :=
  let macd_line := List.zipWith (· - ·) (ema 12 close) (ema 26 close)
  let signal_line := ema 9 macd_line
  List.zipWith (· - ·) macd_line signal_line

/-- `_rsi`: Wilder's RSI.  `avg_loss` equal to zero is replaced by NaN, so
the RSI is undefined there. -/
def rsiSeries (period : ℕ) (close : List ℚ) : List (Option ℚ) :=
  let delta := diffQ close
  let gain := delta.map (Option.map (fun d => max d 0))
  let loss := delta.map (Option.map (fun d => max (-d) 0))
  let avg_gain := ewmMean (1 / (period : ℚ)) period gain
  let avg_loss := ewmMean (1 / (period : ℚ)) period loss
  let rs := List.zipWith odiv avg_gain (avg_loss.map replace0)
  rs.map (Option.map (fun r => 100 - 100 / (1 + r)))

/-- True range of one candle given the previous close (`max` over the three
candidates skips the NaN in the first row, as pandas `max(axis=1)` does). -/
def trElem (h l : ℚ) (pc : Option ℚ) : ℚ :=
  match pc with
  | none => h - l
  | some c => max (h - l) (max |h - c| |l - c|)

/-- Three-list `zipWith`, used for row-wise true-range computation. -/
def zipWith3 (f : α → β → γ → δ) : List α → List β → List γ → List δ
  | a :: as, b :: bs, c :: cs => f a b c :: zipWith3 f as bs cs
  | _, _, _ => []

/-- The true-range series of a frame. -/
def trSeries (df : List Candle) : List ℚ :=
  zipWith3 trElem (df.map (·.high)) (df.map (·.low)) (shiftQ (df.map (·.close)))

/-- `_atr`: Wilder-smoothed true range. -/
def atrSeries (period : ℕ) (df : List Candle) : List (Option ℚ) :=
  ewmMean (1 / (period : ℚ)) period ((trSeries df).map some)

/-- `_adx`: directional movement (each zeroed when not dominant; note the
source compares `minus_dm` against the already-zeroed `plus_dm`), Wilder
smoothing of ±DM and TR, `DX = 100·|+DI−(−DI)|/(+DI+(−DI))` with a zero
denominator replaced by NaN, and a final Wilder smoothing of DX. -/
def adxSeries (period : ℕ) (df : List Candle) : List (Option ℚ) :=
  let a : ℚ := 1 / (period : ℚ)
  let pdm0 := (diffQ (df.map (·.high))).map (Option.map (fun d => max d 0))
  let mdm0 := (diffQ (df.map (·.low))).map (Option.map (fun d => max (-d) 0))
  let pdm := List.zipWith (fun p m => if oltB m p then p else some 0) pdm0 mdm0
  let mdm := List.zipWith (fun m p => if oltB p m then m else some 0) mdm0 pdm
  let atr := ewmMean a period ((trSeries df).map some)
  let pdi := List.zipWith (fun x y => odiv (omul (some 100) x) y)
      (ewmMean a period pdm) atr
  let mdi := List.zipWith (fun x y => odiv (omul (some 100) x) y)
      (ewmMean a period mdm) atr
  let dx := List.zipWith
      (fun p m => odiv (omul (some 100) (oabs (osub p m))) (replace0 (oadd p m)))
      pdi mdi
  ewmMean a period dx

/-- Pandas `Series.rolling(n).mean()`: NaN until a full window is
available. -/
def rollingMean (n : ℕ) (xs : List ℚ) : List (Option ℚ) :=
  (List.range xs.length).map (fun i =>
    if n ≤ i + 1 then some (((xs.take (i + 1)).drop (i + 1 - n)).sum / n) else none)

/-- The middle Bollinger band (`_bollinger`'s `mid`), a 20-period simple
moving average.  The scoring engine discards the upper/lower bands, whose
standard deviation is irrational in general, so only the band it reads is
modelled. -/
def bollingerMid (close : List ℚ) : List (Option ℚ) := rollingMean 20 close

/-! ### Entry scoring engine (`compute_entry_score`) -/

/-- EMA alignment block: 25 points for `ema9 > ema21 > ema50`, 10 for
`ema9 > ema21` alone. -/
def emaSubScore (e9 e21 e50 : ℚ) : ℕ :=
  if e21 < e9 ∧ e50 < e21 then 25 else if e21 < e9 then 10 else 0

/-- MACD histogram block: 20 points for a fresh positive cross, 15 for a
positive expanding histogram, 8 for a three-bar strict increase. -/
def macdSubScore (hist_now hist_prev hist_prev2 : ℚ) : ℕ :=
  if 0 < hist_now ∧ hist_prev ≤ 0 then 20
  else if 0 < hist_now ∧ hist_prev < hist_now then 15
  else if hist_prev < hist_now ∧ hist_prev2 < hist_prev then 8
  else 0

/-- RSI block: 15 points inside `[RSI_ENTRY_MIN, RSI_ENTRY_MAX]`, 8 below
the band; an undefined RSI contributes nothing. -/
def rsiSubScore (r : Option ℚ) : ℕ :=
  if oleB (some rsiEntryMin) r && oleB r (some rsiEntryMax) then 15
  else if oltB r (some rsiEntryMin) then 8
  else 0

/-- ADX block: 15 points above `ADX_THRESHOLD`, 7 above 15; an undefined ADX
contributes nothing. -/
def adxSubScore (a : Option ℚ) : ℕ :=
  if oltB (some adxThreshold) a then 15 else if oltB (some 15) a then 7 else 0

/-- Bollinger block: 10 points for a close above the middle band; an
undefined band contributes nothing. -/
def bbSubScore (current_price : ℚ) (mid : Option ℚ) : ℕ :=
  if oltB mid (some current_price) then 10 else 0

/-- Volume block: 10 points for a surge ratio of at least 1.5. -/
def volSubScore (vol_ratio : ℚ) : ℕ := if (3:ℚ)/2 ≤ vol_ratio then 10 else 0

/-- Bullish-candle block: 5 points for a close above the open. -/
def bullSubScore (current_price opn : ℚ) : ℕ := if opn < current_price then 5 else 0

/-- The `signals` dictionary of `compute_entry_score`. -/
structure EntrySignals where
  ema_aligned : Bool
  macd_bullish : Bool
  rsi_ok : Bool
  adx_trending : Bool
  above_bb_mid : Bool
  volume_confirmed : Bool
  bullish_candle : Bool
  deriving DecidableEq, Repr

/-- The result of `compute_entry_score`: the score, the recommendation flag,
the signal flags, and the `indicators` dictionary (rounded as in the
source).  The seven additive contributions are recorded individually; the
source accumulates exactly these into `score`. -/
structure EntryEval where
  score : ℕ
  entry_recommended : Bool
  signals : EntrySignals
  sub_ema : ℕ
  sub_macd : ℕ
  sub_rsi : ℕ
  sub_adx : ℕ
  sub_bb : ℕ
  sub_vol : ℕ
  sub_bull : ℕ
  ema9 : ℚ
  ema21 : ℚ
  ema50 : ℚ
  macd_hist : ℚ
  rsi : Option ℚ
  adx : Option ℚ
  bb_mid : Option ℚ
  volume_ratio : ℚ
  atr : Option ℚ
  current_price : ℚ
  deriving DecidableEq, Repr

/-- Last values of the three EMAs read by block 1 of
`compute_entry_score`. -/
def emaLasts (close : List ℚ) : Option (ℚ × ℚ × ℚ) := do
  let e9 ← ilast 1 (ema emaFast close)
  let e21 ← ilast 1 (ema emaMid close)
  let e50 ← ilast 1 (ema emaSlow close)
  return (e9, e21, e50)

/-- Last three values of the MACD histogram read by block 2 of
`compute_entry_score` (`iloc[-1]`, `iloc[-2]`, `iloc[-3]`). -/
def histLasts (close : List ℚ) : Option (ℚ × ℚ × ℚ) := do
  let hist := macdHist close
  let hist_now ← ilast 1 hist
  let hist_prev ← ilast 2 hist
  let hist_prev2 ← ilast 3 hist
  return (hist_now, hist_prev, hist_prev2)

/-- The 20-candle rolling mean volume and the latest volume read by block 6
of `compute_entry_score`. -/
def volLasts (df : List Candle) : Option (Option ℚ × ℚ) := do
  let vols := df.map (·.volume)
  let vol_avg ← ilast 1 (rollingMean 20 vols)
  let vol_now ← ilast 1 vols
  return (vol_avg, vol_now)

/-- The latest close and open read by blocks 5 and 7 of
`compute_entry_score`. -/
def priceLasts (df : List Candle) : Option (ℚ × ℚ) := do
  let current_price ← ilast 1 (df.map (·.close))
  let opn_last ← ilast 1 (df.map (·.opn))
  return (current_price, opn_last)

/-- The volume ratio of block 6: `vol_now / vol_avg` when the rolling mean
is defined and positive, else `0.0` (a NaN mean compares false). -/
def volRatioOf (vol_avg : Option ℚ) (vol_now : ℚ) : ℚ :=
  match vol_avg with
  | some av => if 0 < av then vol_now / av else 0
  | none => 0

/-- `compute_entry_score`: score an OHLCV frame.  `none` models the
`IndexError` the source raises on the trailing-element reads (the deepest is
`hist.iloc[-3]`, so any frame with at least 3 rows yields a result). -/
def compute_entry_score (df : List Candle) : Option EntryEval := do
  let close := df.map (·.close)
  let (e9, e21, e50) ← emaLasts close
  let (hist_now, hist_prev, hist_prev2) ← histLasts close
  let rsi_val ← ilast 1 (rsiSeries rsiPeriod close)
  let adx_val ← ilast 1 (adxSeries adxPeriod df)
  let bb_mid_val ← ilast 1 (bollingerMid close)
  let (current_price, opn_last) ← priceLasts df
  let (vol_avg, vol_now) ← volLasts df
  let vol_ratio := volRatioOf vol_avg vol_now
  let atr_val ← ilast 1 (atrSeries atrPeriod df)
  let s_ema := emaSubScore e9 e21 e50
  let s_macd := macdSubScore hist_now hist_prev hist_prev2
  let s_rsi := rsiSubScore rsi_val
  let s_adx := adxSubScore adx_val
  let s_bb := bbSubScore current_price bb_mid_val
  let s_vol := volSubScore vol_ratio
  let s_bull := bullSubScore current_price opn_last
  let score := s_ema + s_macd + s_rsi + s_adx + s_bb + s_vol + s_bull
  return {
      score := score
      entry_recommended := decide (entryScoreThreshold ≤ score)
      signals :=
        { ema_aligned := decide (e21 < e9 ∧ e50 < e21)
          macd_bullish := decide ((0 < hist_now ∧ hist_prev ≤ 0)
            ∨ (0 < hist_now ∧ hist_prev < hist_now))
          rsi_ok := oleB (some rsiEntryMin) rsi_val && oleB rsi_val (some rsiEntryMax)
          adx_trending := oltB (some adxThreshold) adx_val
          above_bb_mid := oltB bb_mid_val (some current_price)
          volume_confirmed := decide ((3:ℚ)/2 ≤ vol_ratio)
          bullish_candle := decide (opn_last < current_price) }
      sub_ema := s_ema
      sub_macd := s_macd
      sub_rsi := s_rsi
      sub_adx := s_adx
      sub_bb := s_bb
      sub_vol := s_vol
      sub_bull := s_bull
      ema9 := roundTo 4 e9
      ema21 := roundTo 4 e21
      ema50 := roundTo 4 e50
      macd_hist := roundTo 6 hist_now
      rsi := rsi_val.map (roundTo 2)
      adx := adx_val.map (roundTo 2)
      bb_mid := bb_mid_val.map (roundTo 4)
      volume_ratio := roundTo 2 vol_ratio
      atr := atr_val.map (roundTo 4)
      current_price := current_price }

/-! ## Theorems -/

/-- C2: `check_exit` first updates the peak to `max(peak, current)` and
activates trailing exactly when the gain reaches the activation rate (or it
was already active); it reports a stop-loss exit precisely when
`current ≤ stop_loss_price` (regardless of trailing state), otherwise a
trailing-stop exit precisely when trailing is active and
`current ≤ peak*(1+TRAILING_STOP_RATE)`, otherwise no exit.  The positive
entry price reflects the `Position` data-model invariant (the source would
divide by zero otherwise). -/
theorem c2_check_exit_state_machine (p : Position) (current_price : ℚ)
    (_hp : 0 < p.entry_price) :
    (check_exit p current_price).1.peak_price = max p.peak_price current_price ∧
    ((check_exit p current_price).1.trailing_active =
      (p.trailing_active
        || decide (trailingActivationRate ≤ current_price / p.entry_price - 1))) ∧
    (check_exit p current_price).1.stop_loss_price = p.stop_loss_price ∧
    ((check_exit p current_price).2 = some .stopLoss ↔
      current_price ≤ p.stop_loss_price) ∧
    ((check_exit p current_price).2 = some .trailingStop ↔
      ¬ current_price ≤ p.stop_loss_price ∧
      (check_exit p current_price).1.trailing_active = true ∧
      current_price ≤ (check_exit p current_price).1.peak_price * (1 + trailingStopRate)) ∧
    ((check_exit p current_price).2 = none ↔
      ¬ current_price ≤ p.stop_loss_price ∧
      ¬((check_exit p current_price).1.trailing_active = true ∧
        current_price ≤ (check_exit p current_price).1.peak_price * (1 + trailingStopRate))) := by
  unfold check_exit update_peak trailing_stop_price
  by_cases h1 : p.peak_price < current_price <;>
    by_cases h2 : trailingActivationRate ≤ current_price / p.entry_price - 1 <;>
      by_cases h3 : p.trailing_active <;>
        simp only [h1, h2, h3, if_true, if_false, ite_true, ite_false, not_true,
          not_false_iff, true_and, false_and, and_true, and_false, if_neg, if_pos,
          Bool.not_true, Bool.not_false] <;>
      split_ifs <;>
      simp_all [max_eq_right, max_eq_left, le_of_lt, le_of_not_lt]

/-- Witness for C2 at a concrete position and price. -/
theorem c2_check_exit_state_machine_witness :
    (0:ℚ) < 100 ∧
    ((check_exit ⟨"KRW-BTC", 100, 1, 0, 100, 90, 100, false, 0, 0⟩ 89).1.peak_price
        = max 100 89 ∧
      ((check_exit ⟨"KRW-BTC", 100, 1, 0, 100, 90, 100, false, 0, 0⟩ 89).1.trailing_active
        = (false || decide (trailingActivationRate ≤ (89:ℚ) / 100 - 1))) ∧
      (check_exit ⟨"KRW-BTC", 100, 1, 0, 100, 90, 100, false, 0, 0⟩ 89).1.stop_loss_price = 90 ∧
      ((check_exit ⟨"KRW-BTC", 100, 1, 0, 100, 90, 100, false, 0, 0⟩ 89).2 = some .stopLoss ↔
        (89:ℚ) ≤ 90) ∧
      ((check_exit ⟨"KRW-BTC", 100, 1, 0, 100, 90, 100, false, 0, 0⟩ 89).2 = some .trailingStop ↔
        ¬ (89:ℚ) ≤ 90 ∧
        (check_exit ⟨"KRW-BTC", 100, 1, 0, 100, 90, 100, false, 0, 0⟩ 89).1.trailing_active = true ∧
        (89:ℚ) ≤ (check_exit ⟨"KRW-BTC", 100, 1, 0, 100, 90, 100, false, 0, 0⟩ 89).1.peak_price
          * (1 + trailingStopRate)) ∧
      ((check_exit ⟨"KRW-BTC", 100, 1, 0, 100, 90, 100, false, 0, 0⟩ 89).2 = none ↔
        ¬ (89:ℚ) ≤ 90 ∧
        ¬((check_exit ⟨"KRW-BTC", 100, 1, 0, 100, 90, 100, false, 0, 0⟩ 89).1.trailing_active = true ∧
          (89:ℚ) ≤ (check_exit ⟨"KRW-BTC", 100, 1, 0, 100, 90, 100, false, 0, 0⟩ 89).1.peak_price
            * (1 + trailingStopRate)))) :=
  ⟨by norm_num, c2_check_exit_state_machine ⟨"KRW-BTC", 100, 1, 0, 100, 90, 100, false, 0, 0⟩ 89 (by norm_num)⟩

/-- Dictionary assignment preserves distinctness of the ticker keys. -/
theorem tickers_dictInsert_nodup (ps : List Position) (pos : Position)
    (h : (tickers ps).Nodup) : (tickers (dictInsert ps pos)).Nodup := by
  unfold dictInsert tickers
  split
  · have heq : (ps.map (fun q => if q.ticker == pos.ticker then pos else q)).map (·.ticker)
        = ps.map (·.ticker) := by
      rw [List.map_map]
      refine List.map_congr_left (fun q _ => ?_)
      by_cases hq : q.ticker == pos.ticker
      · simp only [Function.comp_apply, if_pos hq]
        exact (beq_iff_eq.mp hq).symm
      · simp only [Function.comp_apply, if_neg hq]
    rw [heq]
    exact h
  · rename_i hany
    have hnotin : pos.ticker ∉ ps.map (·.ticker) := by
      intro hmem
      obtain ⟨q, hq, hqt⟩ := List.mem_map.mp hmem
      exact hany (List.any_eq_true.mpr ⟨q, hq, beq_iff_eq.mpr hqt⟩)
    rw [List.map_append]
    refine List.Nodup.append h (List.nodup_singleton _) ?_
    intro a ha hb
    rw [List.map_singleton, List.mem_singleton] at hb
    exact hnotin (hb ▸ ha)

/-- Removing a position preserves distinctness of the ticker keys. -/
theorem tickers_eraseP_nodup (ps : List Position) (f : Position → Bool)
    (h : (tickers ps).Nodup) : (tickers (ps.eraseP f)).Nodup := by
  unfold tickers
  exact h.sublist ((ps.eraseP_sublist).map (·.ticker))

/-- Closed form of `update_peak`: the peak becomes the maximum of the old
peak and the current price, and trailing activation is one-way. -/
theorem update_peak_eq (p : Position) (cur : ℚ) :
    update_peak p cur = { p with
      peak_price := max p.peak_price cur,
      trailing_active := p.trailing_active
        || decide (trailingActivationRate ≤ cur / p.entry_price - 1) } := by
  obtain ⟨tk, ep, qy, et, ik, sl, pk, ta, es, ls⟩ := p
  unfold update_peak
  dsimp only
  by_cases h1 : pk < cur
  · have hm : max pk cur = cur := max_eq_right (le_of_lt h1)
    by_cases h3 : ta
    · simp [h1, h3, hm]
    · by_cases h2 : trailingActivationRate ≤ cur / ep - 1
      · simp [h1, h2, h3, hm]
      · simp [h1, h2, h3, hm]
  · have hm : max pk cur = pk := max_eq_left (not_lt.mp h1)
    by_cases h3 : ta
    · simp [h1, h3, hm]
    · by_cases h2 : trailingActivationRate ≤ cur / ep - 1
      · simp [h1, h2, h3, hm]
      · simp [h1, h2, h3, hm]

/-- The position component of `check_exit` is exactly the `update_peak`
mutation. -/
theorem check_exit_fst (p : Position) (cur : ℚ) :
    (check_exit p cur).1 = update_peak p cur := by
  dsimp only [check_exit]
  split_ifs <;> rfl

/-- C3: the `Position` operations preserve the data-model invariants: ticker
keys stay distinct under `open_position` and `close_position`; a freshly
opened position has `peak = entry`, `stop = entry*(1+STOP_LOSS_RATE)` and
trailing off; `update_peak` (and hence `check_exit`, whose state change is
exactly `update_peak`) never lowers the peak, keeps `peak ≥ entry`, never
deactivates trailing, and never touches the ticker, entry price or stop
price. -/
theorem c3_position_invariants (ps : List Position) (p : Position)
    (cur : ℚ) (t : String) (entry qty inv now es ls price : ℚ)
    (reason : ExitReason)
    (hnd : (tickers ps).Nodup) (hpe : p.entry_price ≤ p.peak_price) :
    (tickers (open_position ps t entry qty inv now es ls).1).Nodup ∧
    (open_position ps t entry qty inv now es ls).2.peak_price = entry ∧
    (open_position ps t entry qty inv now es ls).2.entry_price = entry ∧
    (open_position ps t entry qty inv now es ls).2.stop_loss_price
      = entry * (1 + stopLossRate) ∧
    (open_position ps t entry qty inv now es ls).2.trailing_active = false ∧
    p.peak_price ≤ (update_peak p cur).peak_price ∧
    p.entry_price ≤ (update_peak p cur).peak_price ∧
    (update_peak p cur).entry_price = p.entry_price ∧
    (update_peak p cur).stop_loss_price = p.stop_loss_price ∧
    (update_peak p cur).ticker = p.ticker ∧
    (p.trailing_active = true → (update_peak p cur).trailing_active = true) ∧
    (check_exit p cur).1 = update_peak p cur ∧
    (tickers (close_position ps t price reason now).positions).Nodup := by
  refine ⟨tickers_dictInsert_nodup ps _ hnd, rfl, rfl, rfl, rfl, ?_, ?_, ?_, ?_, ?_, ?_,
    check_exit_fst p cur, ?_⟩
  · rw [update_peak_eq]
    exact le_max_left _ _
  · rw [update_peak_eq]
    exact le_trans hpe (le_max_left _ _)
  · rw [update_peak_eq]
  · rw [update_peak_eq]
  · rw [update_peak_eq]
  · intro htr
    rw [update_peak_eq]
    simp [htr]
  · unfold close_position
    split
    · exact hnd
    · exact tickers_eraseP_nodup ps _ hnd

/-- Witness for C3 at a concrete state, position and operation arguments. -/
theorem c3_position_invariants_witness :
    ((tickers [] : List String).Nodup ∧
      ((⟨"KRW-ETH", 50, 1, 0, 50, 45, 60, true, 0, 0⟩ : Position).entry_price
        ≤ (⟨"KRW-ETH", 50, 1, 0, 50, 45, 60, true, 0, 0⟩ : Position).peak_price)) ∧
    ((tickers (open_position [] "KRW-BTC" 100 1 100 0 80 70).1).Nodup ∧
      (open_position [] "KRW-BTC" 100 1 100 0 80 70).2.peak_price = 100 ∧
      (open_position [] "KRW-BTC" 100 1 100 0 80 70).2.entry_price = 100 ∧
      (open_position [] "KRW-BTC" 100 1 100 0 80 70).2.stop_loss_price
        = 100 * (1 + stopLossRate) ∧
      (open_position [] "KRW-BTC" 100 1 100 0 80 70).2.trailing_active = false ∧
      (⟨"KRW-ETH", 50, 1, 0, 50, 45, 60, true, 0, 0⟩ : Position).peak_price
        ≤ (update_peak ⟨"KRW-ETH", 50, 1, 0, 50, 45, 60, true, 0, 0⟩ 70).peak_price ∧
      (⟨"KRW-ETH", 50, 1, 0, 50, 45, 60, true, 0, 0⟩ : Position).entry_price
        ≤ (update_peak ⟨"KRW-ETH", 50, 1, 0, 50, 45, 60, true, 0, 0⟩ 70).peak_price ∧
      (update_peak ⟨"KRW-ETH", 50, 1, 0, 50, 45, 60, true, 0, 0⟩ 70).entry_price
        = (⟨"KRW-ETH", 50, 1, 0, 50, 45, 60, true, 0, 0⟩ : Position).entry_price ∧
      (update_peak ⟨"KRW-ETH", 50, 1, 0, 50, 45, 60, true, 0, 0⟩ 70).stop_loss_price
        = (⟨"KRW-ETH", 50, 1, 0, 50, 45, 60, true, 0, 0⟩ : Position).stop_loss_price ∧
      (update_peak ⟨"KRW-ETH", 50, 1, 0, 50, 45, 60, true, 0, 0⟩ 70).ticker
        = (⟨"KRW-ETH", 50, 1, 0, 50, 45, 60, true, 0, 0⟩ : Position).ticker ∧
      ((⟨"KRW-ETH", 50, 1, 0, 50, 45, 60, true, 0, 0⟩ : Position).trailing_active = true →
        (update_peak ⟨"KRW-ETH", 50, 1, 0, 50, 45, 60, true, 0, 0⟩ 70).trailing_active = true) ∧
      (check_exit ⟨"KRW-ETH", 50, 1, 0, 50, 45, 60, true, 0, 0⟩ 70).1
        = update_peak ⟨"KRW-ETH", 50, 1, 0, 50, 45, 60, true, 0, 0⟩ 70 ∧
      (tickers (close_position [] "KRW-BTC" 95 .stopLoss 0).positions).Nodup) :=
  ⟨⟨by simp [tickers], by norm_num⟩,
    c3_position_invariants [] ⟨"KRW-ETH", 50, 1, 0, 50, 45, 60, true, 0, 0⟩ 70
      "KRW-BTC" 100 1 100 0 80 70 95 .stopLoss (by simp [tickers]) (by norm_num)⟩

/-- C5: `calc_position_size` computes exactly the sizing rule stated by the
spec (`calcPositionSizeSpec`): zero at the position cap, for a held ticker,
for insufficient available budget, or for a size below the minimum order
notional; otherwise the confidence-scaled, capped size rounded to the
nearest whole KRW, with the ATR percentage floored to `0.05` when the price
is non-positive or the percentage is non-positive. -/
theorem c5_calc_position_size_matches_spec (ps : List Position) (ticker : String)
    (current_price atr total_portfolio_krw combined_confidence : ℚ) :
    calc_position_size ps ticker current_price atr total_portfolio_krw combined_confidence
      = calcPositionSizeSpec ps ticker current_price atr total_portfolio_krw combined_confidence := by
  unfold calc_position_size calcPositionSizeSpec
  dsimp only
  have hpct : (if (if 0 < current_price then atr / current_price else (1:ℚ)/20) ≤ 0
        then (1:ℚ)/20
        else if 0 < current_price then atr / current_price else (1:ℚ)/20)
      = (if current_price ≤ 0 ∨ atr / current_price ≤ 0
        then (1:ℚ)/20 else atr / current_price) := by
    by_cases hp : 0 < current_price
    · have hp' : ¬ current_price ≤ 0 := not_le.mpr hp
      by_cases ha : atr / current_price ≤ 0
      · simp [hp, ha, hp']
      · simp [hp, ha, hp']
    · have hp' : current_price ≤ 0 := not_lt.mp hp
      have h20 : ¬ ((1:ℚ)/20 ≤ 0) := by norm_num
      simp [hp, hp', h20]
  rw [hpct]

/-- Every position left after a successful `close_position` has a different
ticker (given distinct keys beforehand). -/
theorem close_position_removes (ps : List Position) (t : String) (price : ℚ)
    (reason : ExitReason) (now : ℚ) (hnd : (tickers ps).Nodup) :
    ∀ q ∈ (close_position ps t price reason now).positions, q.ticker ≠ t := by
  intro q hq
  unfold close_position at hq
  cases hf : ps.find? (fun p => p.ticker == t) with
  | none =>
    rw [hf] at hq
    dsimp at hq
    have := List.find?_eq_none.mp hf q hq
    simpa using this
  | some pos =>
    rw [hf] at hq
    dsimp at hq
    have hpa := @List.find?_some Position (fun p => p.ticker == t) pos ps hf
    have hmem : pos ∈ ps := List.mem_of_find?_eq_some hf
    obtain ⟨a, l₁, l₂, hl₁, hpa2, hsplit, herase⟩ :=
      @List.exists_of_eraseP Position (fun p => p.ticker == t) ps pos hmem hpa
    rw [herase] at hq
    rcases List.mem_append.mp hq with h1 | h2
    · simpa using hl₁ q h1
    · have hat : a.ticker = t := beq_iff_eq.mp hpa2
      have hnd' : ((l₁ ++ a :: l₂).map (·.ticker)).Nodup := by
        rw [← hsplit]
        exact hnd
      rw [List.map_append, List.map_cons] at hnd'
      have hnotin : a.ticker ∉ l₂.map (·.ticker) :=
        (List.nodup_cons.mp hnd'.of_append_right).1
      intro hqt
      have hq2 : q.ticker ∈ l₂.map (·.ticker) := List.mem_map_of_mem _ h2
      rw [hqt, ← hat] at hq2
      exact hnotin hq2

/-- The summary of a successful `close_position`, in terms of the position
found under the ticker. -/
theorem close_position_summary (ps : List Position) (t : String) (price now : ℚ)
    (reason : ExitReason) (pos : Position)
    (hfind : ps.find? (fun p => p.ticker == t) = some pos) :
    (close_position ps t price reason now).summary.map (·.exit_price) = some price := by
  simp [close_position, hfind]

/-- C10: closing a ticker with no open position returns `None`, leaves the
position set unchanged, and does not rewrite the persisted state. -/
theorem c10_close_missing_ticker (ps : List Position) (t : String)
    (price : ℚ) (reason : ExitReason) (now : ℚ)
    (h : ∀ q ∈ ps, q.ticker ≠ t) :
    close_position ps t price reason now = ⟨ps, none, false⟩ := by
  unfold close_position
  have hf : ps.find? (fun p => p.ticker == t) = none :=
    List.find?_eq_none.mpr (fun x hx => by simpa using h x hx)
  rw [hf]

/-- Witness for C10 on a concrete state. -/
theorem c10_close_missing_ticker_witness :
    (∀ q ∈ [(⟨"KRW-ETH", 50, 1, 0, 50, 45, 60, true, 0, 0⟩ : Position)],
      q.ticker ≠ "KRW-BTC") ∧
    close_position [⟨"KRW-ETH", 50, 1, 0, 50, 45, 60, true, 0, 0⟩] "KRW-BTC" 95 .stopLoss 7
      = ⟨[⟨"KRW-ETH", 50, 1, 0, 50, 45, 60, true, 0, 0⟩], none, false⟩ :=
  ⟨by decide,
    c10_close_missing_ticker [⟨"KRW-ETH", 50, 1, 0, 50, 45, 60, true, 0, 0⟩]
      "KRW-BTC" 95 .stopLoss 7 (by decide)⟩

/-- C6 counterexample: with entry price 3 and exit price 4, the summary's
`pnl_rate` field is `round((4/3 − 1)·100, 2) = 33.33`, not the exact
relative PnL `4/3 − 1`. -/
theorem c6_counterexample :
    ((close_position [⟨"KRW-XRP", 3, 1, 0, 100, 2, 3, false, 0, 0⟩]
        "KRW-XRP" 4 .stopLoss 0).summary.map (·.pnl_rate)) = some (3333/100) ∧
    ((3333 : ℚ)/100) ≠ (4 : ℚ)/3 - 1 := by
  constructor
  · simp only [close_position]
    norm_num [List.find?, roundTo, roundHalfEven]
  · norm_num

/-- C6 (amended): closing an open position removes its ticker from the open
set and returns a summary whose `pnl_rate` field is the percentage PnL
`(exit/entry − 1)·100` rounded (half to even) to 2 decimal places; the
summary's `exit_price` is the requested exit price. -/
theorem c6_close_position_round_trip (ps : List Position) (t : String)
    (pos : Position) (price now : ℚ) (reason : ExitReason)
    (hfind : ps.find? (fun p => p.ticker == t) = some pos)
    (hnd : (tickers ps).Nodup) :
    (∀ q ∈ (close_position ps t price reason now).positions, q.ticker ≠ t) ∧
    (close_position ps t price reason now).summary.map (·.pnl_rate)
      = some (roundTo 2 ((price / pos.entry_price - 1) * 100)) ∧
    (close_position ps t price reason now).summary.map (·.exit_price) = some price := by
  refine ⟨close_position_removes ps t price reason now hnd, ?_, ?_⟩ <;>
    simp [close_position, hfind]

/-- Witness for C6 (amended) on a concrete position. -/
theorem c6_close_position_round_trip_witness :
    ([(⟨"KRW-XRP", 3, 1, 0, 100, 2, 3, false, 0, 0⟩ : Position)].find?
        (fun p => p.ticker == "KRW-XRP")
      = some ⟨"KRW-XRP", 3, 1, 0, 100, 2, 3, false, 0, 0⟩) ∧
    ((∀ q ∈ (close_position [⟨"KRW-XRP", 3, 1, 0, 100, 2, 3, false, 0, 0⟩]
        "KRW-XRP" 4 .stopLoss 0).positions, q.ticker ≠ "KRW-XRP") ∧
      (close_position [⟨"KRW-XRP", 3, 1, 0, 100, 2, 3, false, 0, 0⟩]
        "KRW-XRP" 4 .stopLoss 0).summary.map (·.pnl_rate)
        = some (roundTo 2 ((4 / (3:ℚ) - 1) * 100)) ∧
      (close_position [⟨"KRW-XRP", 3, 1, 0, 100, 2, 3, false, 0, 0⟩]
        "KRW-XRP" 4 .stopLoss 0).summary.map (·.exit_price) = some 4) :=
  ⟨by norm_num [List.find?],
    c6_close_position_round_trip [⟨"KRW-XRP", 3, 1, 0, 100, 2, 3, false, 0, 0⟩]
      "KRW-XRP" ⟨"KRW-XRP", 3, 1, 0, 100, 2, 3, false, 0, 0⟩ 4 0 .stopLoss
      (by norm_num [List.find?]) (by simp [tickers])⟩

/-- Replacing a member position by one with the same ticker does not change
the ticker keys. -/
theorem tickers_replace (ps : List Position) (p pos' : Position)
    (ht : pos'.ticker = p.ticker) :
    tickers (ps.map (fun q => if q.ticker == p.ticker then pos' else q)) = tickers ps := by
  unfold tickers
  rw [List.map_map]
  refine List.map_congr_left (fun q _ => ?_)
  by_cases hq : q.ticker == p.ticker
  · simp only [Function.comp_apply, if_pos hq]
    rw [ht, beq_iff_eq.mp hq]
  · simp only [Function.comp_apply, if_neg hq]

/-- After replacing the member `p` by `pos'` (same ticker), looking the
ticker up finds `pos'`. -/
theorem find?_replace (ps : List Position) (p pos' : Position)
    (hmem : p ∈ ps) (ht : pos'.ticker = p.ticker) :
    (ps.map (fun q => if q.ticker == p.ticker then pos' else q)).find?
      (fun q => q.ticker == p.ticker) = some pos' := by
  induction ps with
  | nil => cases hmem
  | cons a l ih =>
    by_cases ha : a.ticker == p.ticker
    · simp only [List.map_cons, if_pos ha, List.find?_cons]
      have : (pos'.ticker == p.ticker) = true := beq_iff_eq.mpr ht
      rw [this]
    · simp only [List.map_cons, if_neg ha, List.find?_cons]
      rw [Bool.eq_false_iff.mpr ha]
      rcases List.mem_cons.mp hmem with heq | hl
      · exact absurd (beq_iff_eq.mpr (congrArg Position.ticker heq.symm)) ha
      · exact ih hl

/-- C1 counterexample: a position whose stop loss has triggered is closed by
the monitor even though the sell callback failed (`sell_result = none`); the
position set becomes empty and the PnL summary is emitted with the observed
price as the exit price.  The claim says the position should have been left
open. -/
theorem c1_counterexample :
    (monitor_tick_position [⟨"KRW-BTC", 100, 1, 0, 100, 90, 100, false, 0, 0⟩]
        ⟨"KRW-BTC", 100, 1, 0, 100, 90, 100, false, 0, 0⟩ (some 85) none 0).1 = [] ∧
    ((monitor_tick_position [⟨"KRW-BTC", 100, 1, 0, 100, 90, 100, false, 0, 0⟩]
        ⟨"KRW-BTC", 100, 1, 0, 100, 90, 100, false, 0, 0⟩ (some 85) none 0).2.map
      (fun s => (s.exit_price, s.reason))) = some (85, .stopLoss) := by
  have hce : check_exit ⟨"KRW-BTC", 100, 1, 0, 100, 90, 100, false, 0, 0⟩ 85
      = (⟨"KRW-BTC", 100, 1, 0, 100, 90, 100, false, 0, 0⟩, some .stopLoss) := by
    unfold check_exit update_peak trailing_stop_price
    norm_num [trailingActivationRate]
  have hclose : close_position [⟨"KRW-BTC", 100, 1, 0, 100, 90, 100, false, 0, 0⟩]
      "KRW-BTC" 85 .stopLoss 0
      = ⟨[], some ⟨"KRW-BTC", 100, 85, -15, -15, 100, 100, 0, .stopLoss⟩, true⟩ := by
    unfold close_position
    norm_num [List.find?, List.eraseP, roundTo, roundHalfEven]
  unfold monitor_tick_position
  dsimp only
  rw [hce]
  dsimp only
  norm_num [actual_exit_price, hclose]

/-- C1 (amended): whenever `check_exit` reports an exit for a monitored
position, the monitor closes the position regardless of the sell callback's
result: on a failed sell (`none`) it closes at the observed current price
instead of leaving the position open.  The summary's exit price is the
callback's fill price when present and truthy, else the observed price. -/
theorem c1_monitor_closes_despite_failed_sell (ps : List Position) (p : Position)
    (cur now : ℚ) (sr : Option ℚ) (r : ExitReason)
    (hnd : (tickers ps).Nodup) (hmem : p ∈ ps)
    (hexit : (check_exit p cur).2 = some r) :
    (∀ q ∈ (monitor_tick_position ps p (some cur) sr now).1, q.ticker ≠ p.ticker) ∧
    ((monitor_tick_position ps p (some cur) sr now).2.map (·.exit_price)
      = some (actual_exit_price sr cur)) := by
  have ht : (check_exit p cur).1.ticker = p.ticker := by
    rw [check_exit_fst, update_peak_eq]
  have hnd' : (tickers (ps.map
      (fun q => if q.ticker == p.ticker then (check_exit p cur).1 else q))).Nodup := by
    rw [tickers_replace ps p _ ht]
    exact hnd
  have hfind := find?_replace ps p (check_exit p cur).1 hmem ht
  unfold monitor_tick_position
  dsimp only
  rw [hexit]
  dsimp only
  constructor
  · exact close_position_removes _ p.ticker _ r now hnd'
  · exact close_position_summary _ p.ticker (actual_exit_price sr cur) now r _ hfind

/-- Witness for C1 (amended): stop-loss triggered, sell failed, position
nevertheless closed at the observed price 85. -/
theorem c1_monitor_closes_despite_failed_sell_witness :
    ((tickers [(⟨"KRW-BTC", 100, 1, 0, 100, 90, 100, false, 0, 0⟩ : Position)]).Nodup ∧
      (⟨"KRW-BTC", 100, 1, 0, 100, 90, 100, false, 0, 0⟩ : Position)
        ∈ [(⟨"KRW-BTC", 100, 1, 0, 100, 90, 100, false, 0, 0⟩ : Position)] ∧
      (check_exit ⟨"KRW-BTC", 100, 1, 0, 100, 90, 100, false, 0, 0⟩ 85).2
        = some .stopLoss) ∧
    ((∀ q ∈ (monitor_tick_position [⟨"KRW-BTC", 100, 1, 0, 100, 90, 100, false, 0, 0⟩]
        ⟨"KRW-BTC", 100, 1, 0, 100, 90, 100, false, 0, 0⟩ (some 85) none 0).1,
      q.ticker ≠ "KRW-BTC") ∧
      ((monitor_tick_position [⟨"KRW-BTC", 100, 1, 0, 100, 90, 100, false, 0, 0⟩]
        ⟨"KRW-BTC", 100, 1, 0, 100, 90, 100, false, 0, 0⟩ (some 85) none 0).2.map
        (·.exit_price) = some (actual_exit_price none 85))) :=
  ⟨⟨by simp [tickers], by simp, by
      unfold check_exit update_peak trailing_stop_price
      norm_num [trailingActivationRate]⟩,
    c1_monitor_closes_despite_failed_sell
      [⟨"KRW-BTC", 100, 1, 0, 100, 90, 100, false, 0, 0⟩]
      ⟨"KRW-BTC", 100, 1, 0, 100, 90, 100, false, 0, 0⟩ 85 0 none .stopLoss
      (by simp [tickers]) (by simp)
      (by unfold check_exit update_peak trailing_stop_price
          norm_num [trailingActivationRate])⟩

/-- C7 counterexample: `sell` performs no minimum-notional validation — a
sell whose notional (`0.1 × 100 = 10` KRW) is far below `MIN_ORDER_KRW`
still returns a success in simulation mode, and in live mode it goes ahead
and submits (succeeding here on the first attempt) instead of being rejected
up front. -/
theorem c7_counterexample :
    (sell true "KRW-XRP" (1/10) 100 (fun _ => .respMissing)).1.success = true ∧
    (sell false "KRW-XRP" (1/10) 100 (fun _ => .respUuid "u")).1.success = true ∧
    ((1:ℚ)/10) * 100 < minOrderKrw := by
  refine ⟨by simp [sell], ?_, by norm_num [minOrderKrw]⟩
  simp [sell, runRetry, retryAux, attemptResult]

/-- C7 (amended): `buy` validates the minimum order notional before
attempting anything (while `sell` does not); in simulation mode both return
a deterministic synthetic success built from the requested price/quantity,
independent of the exchange outcomes (no network call); in live mode the
retry loop makes at most 3 attempts, treats a uuid-less response or a
call-level fault as a failed attempt, sleeps `base_delay·2^(attempt−1)`
(1s, 2s) before each retry, succeeds as soon as an attempt returns a uuid,
and after exhausting all attempts returns a failure carrying the last
error. -/
theorem c7_order_submission (ticker : String) (amount price qty : ℚ)
    (os os' : ℕ → Outcome) :
    (amount < minOrderKrw → ∀ dry,
      buy dry ticker amount price os
        = ({ success := false, ticker := ticker, side := "buy", price := price,
             quantity := 0, amount_krw := amount, order_id := none,
             error := some .minNotional, dry_run := false }, [])) ∧
    (minOrderKrw ≤ amount →
      buy true ticker amount price os
        = ({ success := true, ticker := ticker, side := "buy", price := price,
             quantity := if 0 < price then amount / price else 0,
             amount_krw := amount, order_id := some "dry-run-buy",
             error := none, dry_run := true }, []) ∧
      buy true ticker amount price os = buy true ticker amount price os') ∧
    (sell true ticker qty price os
      = ({ success := true, ticker := ticker, side := "sell", price := price,
           quantity := qty, amount_krw := qty * price,
           order_id := some "dry-run-sell", error := none, dry_run := true }, []) ∧
      sell true ticker qty price os = sell true ticker qty price os') ∧
    (∀ (side : String) (pr q ak sq : ℚ),
      (∀ u, os 1 = .respUuid u →
        runRetry side ticker pr q ak sq os
          = ({ success := true, ticker := ticker, side := side, price := pr,
               quantity := q, amount_krw := if ak = 0 then pr * sq else ak,
               order_id := some u, error := none, dry_run := false }, [])) ∧
      (∀ e1 u, attemptResult (os 1) = .error e1 → os 2 = .respUuid u →
        runRetry side ticker pr q ak sq os
          = ({ success := true, ticker := ticker, side := side, price := pr,
               quantity := q, amount_krw := if ak = 0 then pr * sq else ak,
               order_id := some u, error := none, dry_run := false }, [1])) ∧
      (∀ e1 e2 u, attemptResult (os 1) = .error e1 → attemptResult (os 2) = .error e2 →
        os 3 = .respUuid u →
        runRetry side ticker pr q ak sq os
          = ({ success := true, ticker := ticker, side := side, price := pr,
               quantity := q, amount_krw := if ak = 0 then pr * sq else ak,
               order_id := some u, error := none, dry_run := false }, [1, 2])) ∧
      (∀ e1 e2 e3, attemptResult (os 1) = .error e1 → attemptResult (os 2) = .error e2 →
        attemptResult (os 3) = .error e3 →
        runRetry side ticker pr q ak sq os
          = ({ success := false, ticker := ticker, side := side, price := pr,
               quantity := q, amount_krw := if ak = 0 then pr * sq else ak,
               order_id := none, error := some (.finalFail (some e3)),
               dry_run := false }, [1, 2]))) ∧
    (minOrderKrw ≤ amount →
      buy false ticker amount price os
        = runRetry "buy" ticker price (if 0 < price then amount / price else 0)
            amount 0 os) ∧
    (sell false ticker qty price os = runRetry "sell" ticker price qty 0 qty os) := by
  refine ⟨?_, ?_, ?_, ?_, ?_, ?_⟩
  · intro hlt dry
    simp [buy, hlt]
  · intro hge
    constructor <;> simp [buy, not_lt.mpr hge]
  · constructor <;> simp [sell]
  · intro side pr q ak sq
    refine ⟨?_, ?_, ?_, ?_⟩
    · intro u h1
      have h1' : attemptResult (os 1) = .ok u := by rw [h1]; rfl
      norm_num [runRetry, retryAux, h1', maxRetries, baseDelay]
    · intro e1 u h1 h2
      have h2' : attemptResult (os 2) = .ok u := by rw [h2]; rfl
      norm_num [runRetry, retryAux, h1, h2', maxRetries, baseDelay]
    · intro e1 e2 u h1 h2 h3
      have h3' : attemptResult (os 3) = .ok u := by rw [h3]; rfl
      norm_num [runRetry, retryAux, h1, h2, h3', maxRetries, baseDelay]
    · intro e1 e2 e3 h1 h2 h3
      norm_num [runRetry, retryAux, h1, h2, h3, maxRetries, baseDelay]
  · intro hge
    simp [buy, not_lt.mpr hge]
  · simp [sell]

/-- Witness for C7 exercising the spec's test scenario: two failures then a
success give a success result after backoff delays of 1 then 2 seconds; the
minimum-notional rejection and the simulation path are exercised at concrete
inputs too. -/
theorem c7_order_submission_witness :
    ((1000 : ℚ) < minOrderKrw ∧
      buy true "KRW-BTC" 1000 100 (fun n => if n = 3 then .respUuid "ok" else .fault "err")
        = ({ success := false, ticker := "KRW-BTC", side := "buy", price := 100,
             quantity := 0, amount_krw := 1000, order_id := none,
             error := some .minNotional, dry_run := false }, [])) ∧
    runRetry "sell" "KRW-BTC" 100 2 0 2
        (fun n => if n = 3 then .respUuid "ok" else .fault "err")
      = ({ success := true, ticker := "KRW-BTC", side := "sell", price := 100,
           quantity := 2, amount_krw := 200, order_id := some "ok",
           error := none, dry_run := false }, [1, 2]) := by
  have h := c7_order_submission "KRW-BTC" 1000 100 2
    (fun n => if n = 3 then .respUuid "ok" else .fault "err")
    (fun n => if n = 3 then .respUuid "ok" else .fault "err")
  refine ⟨⟨by norm_num [minOrderKrw], h.1 (by norm_num [minOrderKrw]) true⟩, ?_⟩
  have h3 := (h.2.2.2.1 "sell" 100 2 0 2).2.2.1 (.callFault "err") (.callFault "err") "ok"
    rfl rfl rfl
  rw [h3]
  norm_num

/-- Stability of the leader sort: for every (rounded) composite score value,
the entries carrying it appear in the sorted list exactly in their original
scan order. -/
theorem insertionSort_filter_key (l : List LeaderEntry) (k : ℚ) :
    ((l.insertionSort leaderGe).filter (fun e => e.composite_score == k))
      = l.filter (fun e => e.composite_score == k) := by
  have hperm : List.Perm (l.insertionSort leaderGe) l := List.perm_insertionSort leaderGe l
  have hpw : (l.filter (fun e => e.composite_score == k)).Pairwise leaderGe := by
    refine List.pairwise_of_forall_mem_list (fun a ha b hb => ?_)
    have hak := List.of_mem_filter ha
    have hbk := List.of_mem_filter hb
    unfold leaderGe
    rw [beq_iff_eq.mp hak, beq_iff_eq.mp hbk]
  have hsub : List.Sublist (l.filter (fun e => e.composite_score == k))
      (l.insertionSort leaderGe) :=
    List.sublist_insertionSort hpw (List.filter_sublist l)
  have h1 : List.Sublist (l.filter (fun e => e.composite_score == k))
      ((l.insertionSort leaderGe).filter (fun e => e.composite_score == k)) := by
    have := hsub.filter (fun e => e.composite_score == k)
    simpa [List.filter_filter] using this
  have h2 : ((l.insertionSort leaderGe).filter (fun e => e.composite_score == k)).length
      = (l.filter (fun e => e.composite_score == k)).length :=
    (hperm.filter (fun e => e.composite_score == k)).length_eq
  exact (h1.eq_of_length h2.symm).symm

/-- C8 counterexample: two candidates whose raw composite scores differ only
in the third decimal round to the same `composite_score`; the scan then
keeps them in scan order, so the one with the *smaller* raw weighted sum is
ranked first.  The returned list is therefore not sorted by the exact
weighted sum `0.35·vol + 0.30·mom + 0.20·rs + 0.15·liq` — it is sorted by
that sum rounded to 2 decimals. -/
theorem c8_counterexample :
    ((scan_market_leaders none
        [⟨"B", List.replicate 20 (⟨1,1,1,1,1⟩ : Candle) ++ [⟨1,1,1,1,15001/10000⟩], 0⟩,
         ⟨"A", List.replicate 20 (⟨1,1,1,1,1⟩ : Candle) ++ [⟨1,1,1,1,15003/10000⟩], 0⟩]).map
      (fun e => e.ticker)) = ["B", "A"] ∧
    rawComposite none ⟨"B", List.replicate 20 (⟨1,1,1,1,1⟩ : Candle)
        ++ [⟨1,1,1,1,15001/10000⟩], 0⟩
      < rawComposite none ⟨"A", List.replicate 20 (⟨1,1,1,1,1⟩ : Candle)
        ++ [⟨1,1,1,1,15003/10000⟩], 0⟩ := by
  have hvA : calcVolumeScore (List.replicate 20 (⟨1,1,1,1,1⟩ : Candle)
      ++ [(⟨1,1,1,1,15003/10000⟩ : Candle)]) = (5001/100, 15003/10000) := by
    unfold calcVolumeScore
    norm_num [volumeSurgeWindow, List.map_append, List.map_replicate, List.getLastD_concat,
      List.sum_replicate, List.take_append, List.take_replicate, List.sum_append]
  have hvB : calcVolumeScore (List.replicate 20 (⟨1,1,1,1,1⟩ : Candle)
      ++ [(⟨1,1,1,1,15001/10000⟩ : Candle)]) = (15001/300, 15001/10000) := by
    unfold calcVolumeScore
    norm_num [volumeSurgeWindow, List.map_append, List.map_replicate, List.getLastD_concat,
      List.sum_replicate, List.take_append, List.take_replicate, List.sum_append]
  have hmA : calcMomentumScore (List.replicate 20 (⟨1,1,1,1,1⟩ : Candle)
      ++ [(⟨1,1,1,1,15003/10000⟩ : Candle)]) = 0 := by
    unfold calcMomentumScore
    norm_num
  have hmB : calcMomentumScore (List.replicate 20 (⟨1,1,1,1,1⟩ : Candle)
      ++ [(⟨1,1,1,1,15001/10000⟩ : Candle)]) = 0 := by
    unfold calcMomentumScore
    norm_num
  have hrA : rawComposite none ⟨"A", List.replicate 20 (⟨1,1,1,1,1⟩ : Candle)
      ++ [⟨1,1,1,1,15003/10000⟩], 0⟩ = 55007/2000 := by
    unfold rawComposite
    rw [hvA, hmA]
    norm_num
  have hrB : rawComposite none ⟨"B", List.replicate 20 (⟨1,1,1,1,1⟩ : Candle)
      ++ [⟨1,1,1,1,15001/10000⟩], 0⟩ = 165007/6000 := by
    unfold rawComposite
    rw [hvB, hmB]
    norm_num
  have hA : scoreCandidate none ⟨"A", List.replicate 20 (⟨1,1,1,1,1⟩ : Candle)
      ++ [⟨1,1,1,1,15003/10000⟩], 0⟩ = some ⟨"A", 55/2, 5001/100, 0, 50, 0, 3/2, 1⟩ := by
    unfold scoreCandidate
    rw [hvA, hrA, hmA]
    norm_num [volumeSurgeMinRatio, roundTo, roundHalfEven, List.map_append,
      List.map_replicate, List.getLastD_concat]
  have hB : scoreCandidate none ⟨"B", List.replicate 20 (⟨1,1,1,1,1⟩ : Candle)
      ++ [⟨1,1,1,1,15001/10000⟩], 0⟩ = some ⟨"B", 55/2, 50, 0, 50, 0, 3/2, 1⟩ := by
    unfold scoreCandidate
    rw [hvB, hrB, hmB]
    norm_num [volumeSurgeMinRatio, roundTo, roundHalfEven, List.map_append,
      List.map_replicate, List.getLastD_concat]
  constructor
  · unfold scan_market_leaders
    rw [List.filterMap_cons, List.filterMap_cons, List.filterMap_nil, hA, hB]
    norm_num [List.insertionSort, List.orderedInsert, leaderGe, leaderTopN]
  · rw [hrA, hrB]
    norm_num

/-- C8 (amended): the scan drops entirely every candidate whose volume surge
ratio is below `VOLUME_SURGE_MIN_RATIO`; each returned entry comes from a
surviving candidate and carries `composite_score` equal to the weighted sum
`0.35·vol + 0.30·mom + 0.20·rs + 0.15·liq` rounded (half to even) to 2
decimals; the output is the stable descending sort of the survivors by this
rounded score (ties keeping scan order), truncated to the top
`LEADER_TOP_N`. -/
theorem c8_leader_scan_ranking (btc : Option (List Candle)) (cands : List RawCandidate) :
    (scan_market_leaders btc cands).length ≤ leaderTopN ∧
    (scan_market_leaders btc cands).Pairwise
      (fun a b => b.composite_score ≤ a.composite_score) ∧
    (∀ e ∈ scan_market_leaders btc cands, ∃ c ∈ cands,
      scoreCandidate btc c = some e ∧
      volumeSurgeMinRatio ≤ (calcVolumeScore c.df).2 ∧
      e.composite_score = roundTo 2 (rawComposite btc c)) ∧
    (∀ c ∈ cands, (calcVolumeScore c.df).2 < volumeSurgeMinRatio →
      scoreCandidate btc c = none) ∧
    (∀ k : ℚ, (((cands.filterMap (scoreCandidate btc)).insertionSort leaderGe).filter
        (fun e => e.composite_score == k))
      = (cands.filterMap (scoreCandidate btc)).filter (fun e => e.composite_score == k)) := by
  refine ⟨?_, ?_, ?_, ?_, fun k => insertionSort_filter_key _ k⟩
  · unfold scan_market_leaders
    exact List.length_take_le _ _
  · unfold scan_market_leaders
    exact ((List.sorted_insertionSort leaderGe _).sublist (List.take_sublist _ _))
  · intro e he
    unfold scan_market_leaders at he
    have he1 : e ∈ (cands.filterMap (scoreCandidate btc)).insertionSort leaderGe :=
      List.mem_of_mem_take he
    have he2 : e ∈ cands.filterMap (scoreCandidate btc) :=
      (List.perm_insertionSort leaderGe _).subset he1
    obtain ⟨c, hc, hsc⟩ := List.mem_filterMap.mp he2
    refine ⟨c, hc, hsc, ?_, ?_⟩
    · by_contra hlt
      dsimp only [scoreCandidate] at hsc
      rw [if_pos (not_le.mp hlt)] at hsc
      cases hsc
    · dsimp only [scoreCandidate] at hsc
      by_cases hlt : (calcVolumeScore c.df).2 < volumeSurgeMinRatio
      · rw [if_pos hlt] at hsc
        cases hsc
      · rw [if_neg hlt] at hsc
        cases hsc
        rfl
  · intro c _ hlt
    dsimp only [scoreCandidate]
    rw [if_pos hlt]

/-- Witness for C8 discharging the inner hypotheses at concrete inputs: a
candidate with an empty frame has surge ratio 0 and is dropped. -/
theorem c8_leader_scan_ranking_witness :
    (scan_market_leaders none [⟨"KRW-BTC", [], 0⟩]).length ≤ leaderTopN ∧
    scoreCandidate none ⟨"KRW-BTC", [], 0⟩ = none :=
  ⟨(c8_leader_scan_ranking none [⟨"KRW-BTC", [], 0⟩]).1,
    (c8_leader_scan_ranking none [⟨"KRW-BTC", [], 0⟩]).2.2.2.1 ⟨"KRW-BTC", [], 0⟩
      (by simp) (by norm_num [calcVolumeScore, volumeSurgeWindow, volumeSurgeMinRatio])⟩

/-- All indicator series are aligned with their input: `ema` preserves
length. -/
theorem length_ema (span : ℕ) (xs : List ℚ) : (ema span xs).length = xs.length := by
  cases xs with
  | nil => rfl
  | cons x rest => simp [ema, List.length_scanl]

/-- The MACD histogram is aligned with the close series. -/
theorem length_macdHist (close : List ℚ) : (macdHist close).length = close.length := by
  simp [macdHist, length_ema]

/-- `diff` preserves length. -/
theorem length_diffQ (xs : List ℚ) : (diffQ xs).length = xs.length := by
  cases xs with
  | nil => rfl
  | cons x rest => simp [diffQ]

/-- `shift` preserves length. -/
theorem length_shiftQ (xs : List ℚ) : (shiftQ xs).length = xs.length := by
  cases xs with
  | nil => rfl
  | cons x rest => simp [shiftQ]

/-- The smoothed-mean recursion preserves length. -/
theorem length_ewmMeanAux (a : ℚ) (m : ℕ) :
    ∀ (xs : List (Option ℚ)) (st : Option (ℚ × ℚ)) (n : ℕ),
      (ewmMeanAux a m xs st n).length = xs.length
  | [], _, _ => rfl
  | x :: xs, st, n => by
    simp [ewmMeanAux, length_ewmMeanAux a m xs]

/-- `ewm(...).mean()` preserves length. -/
theorem length_ewmMean (a : ℚ) (m : ℕ) (xs : List (Option ℚ)) :
    (ewmMean a m xs).length = xs.length := length_ewmMeanAux a m xs none 0

/-- Length of a three-way zip. -/
theorem length_zipWith3 (f : α → β → γ → δ) :
    ∀ (as : List α) (bs : List β) (cs : List γ),
      (zipWith3 f as bs cs).length = min as.length (min bs.length cs.length)
  | [], _, _ => by simp [zipWith3]
  | _ :: _, [], _ => by simp [zipWith3]
  | _ :: _, _ :: _, [] => by simp [zipWith3]
  | a :: as, b :: bs, c :: cs => by
    simp [zipWith3, length_zipWith3 f as bs cs]
    omega

/-- The true-range series is aligned with the frame. -/
theorem length_trSeries (df : List Candle) : (trSeries df).length = df.length := by
  simp [trSeries, length_zipWith3, length_shiftQ]

/-- The RSI series is aligned with the close series. -/
theorem length_rsiSeries (period : ℕ) (close : List ℚ) :
    (rsiSeries period close).length = close.length := by
  simp [rsiSeries, length_ewmMean, length_diffQ]

/-- The ATR series is aligned with the frame. -/
theorem length_atrSeries (period : ℕ) (df : List Candle) :
    (atrSeries period df).length = df.length := by
  simp [atrSeries, length_ewmMean, length_trSeries]

/-- The ADX series is aligned with the frame. -/
theorem length_adxSeries (period : ℕ) (df : List Candle) :
    (adxSeries period df).length = df.length := by
  simp [adxSeries, length_ewmMean, length_diffQ, length_trSeries]

/-- `rolling(n).mean()` preserves length. -/
theorem length_rollingMean (n : ℕ) (xs : List ℚ) :
    (rollingMean n xs).length = xs.length := by
  simp [rollingMean]

/-- `iloc[-k]` succeeds on a series of length at least `k ≥ 1`. -/
theorem ilast_isSome (k : ℕ) (xs : List α) (h1 : 1 ≤ k) (h2 : k ≤ xs.length) :
    ∃ v, ilast k xs = some v := by
  unfold ilast
  rw [if_pos ⟨h1, h2⟩]
  have hlt : xs.length - k < xs.length := by omega
  exact ⟨xs[xs.length - k], List.getElem?_eq_getElem hlt⟩

/-- The EMA block reads succeed on a non-empty frame. -/
theorem emaLasts_isSome (close : List ℚ) (h : 1 ≤ close.length) :
    ∃ a b c, emaLasts close = some (a, b, c) := by
  obtain ⟨v1, h1⟩ := ilast_isSome 1 (ema emaFast close) le_rfl (by rw [length_ema]; exact h)
  obtain ⟨v2, h2⟩ := ilast_isSome 1 (ema emaMid close) le_rfl (by rw [length_ema]; exact h)
  obtain ⟨v3, h3⟩ := ilast_isSome 1 (ema emaSlow close) le_rfl (by rw [length_ema]; exact h)
  exact ⟨v1, v2, v3, by simp [emaLasts, h1, h2, h3]⟩

/-- The MACD block reads succeed on a frame with at least 3 rows. -/
theorem histLasts_isSome (close : List ℚ) (h : 3 ≤ close.length) :
    ∃ a b c, histLasts close = some (a, b, c) := by
  obtain ⟨v1, h1⟩ := ilast_isSome 1 (macdHist close) le_rfl
    (by rw [length_macdHist]; omega)
  obtain ⟨v2, h2⟩ := ilast_isSome 2 (macdHist close) (by omega)
    (by rw [length_macdHist]; omega)
  obtain ⟨v3, h3⟩ := ilast_isSome 3 (macdHist close) (by omega)
    (by rw [length_macdHist]; omega)
  exact ⟨v1, v2, v3, by simp [histLasts, h1, h2, h3]⟩

/-- The volume block reads succeed on a non-empty frame. -/
theorem volLasts_isSome (df : List Candle) (h : 1 ≤ df.length) :
    ∃ a b, volLasts df = some (a, b) := by
  obtain ⟨v1, h1⟩ := ilast_isSome 1 (rollingMean 20 (df.map (·.volume))) le_rfl
    (by rw [length_rollingMean]; simpa using h)
  obtain ⟨v2, h2⟩ := ilast_isSome 1 (df.map (·.volume)) le_rfl (by simpa using h)
  exact ⟨v1, v2, by simp [volLasts, h1, h2]⟩

/-- The price block reads succeed on a non-empty frame. -/
theorem priceLasts_isSome (df : List Candle) (h : 1 ≤ df.length) :
    ∃ a b, priceLasts df = some (a, b) := by
  obtain ⟨v1, h1⟩ := ilast_isSome 1 (df.map (·.close)) le_rfl (by simpa using h)
  obtain ⟨v2, h2⟩ := ilast_isSome 1 (df.map (·.opn)) le_rfl (by simpa using h)
  exact ⟨v1, v2, by simp [priceLasts, h1, h2]⟩

/-- `compute_entry_score` returns a result on every frame with at least 3
rows (the deepest trailing read is `hist.iloc[-3]`). -/
theorem compute_entry_score_isSome_of_length (df : List Candle) (h : 3 ≤ df.length) :
    (compute_entry_score df).isSome := by
  have hclose : (df.map (·.close)).length = df.length := List.length_map df _
  obtain ⟨e9, e21, e50, hema⟩ := emaLasts_isSome (df.map (·.close)) (by omega)
  obtain ⟨h1, h2, h3, hhist⟩ := histLasts_isSome (df.map (·.close)) (by omega)
  obtain ⟨vrsi, hrsi⟩ := ilast_isSome 1 (rsiSeries rsiPeriod (df.map (·.close))) le_rfl
    (by rw [length_rsiSeries]; omega)
  obtain ⟨vadx, hadx⟩ := ilast_isSome 1 (adxSeries adxPeriod df) le_rfl
    (by rw [length_adxSeries]; omega)
  obtain ⟨vbb, hbb⟩ := ilast_isSome 1 (bollingerMid (df.map (·.close))) le_rfl
    (by simp only [bollingerMid]; rw [length_rollingMean]; omega)
  obtain ⟨vc, vo, hpl⟩ := priceLasts_isSome df (by omega)
  obtain ⟨va, vn, hvl⟩ := volLasts_isSome df (by omega)
  obtain ⟨vatr, hatr⟩ := ilast_isSome 1 (atrSeries atrPeriod df) le_rfl
    (by rw [length_atrSeries]; omega)
  unfold compute_entry_score
  simp [hema, hhist, hrsi, hadx, hbb, hpl, hvl, hatr]

/-- C9 counterexample: on a single-row frame `compute_entry_score` does not
return a result — the source raises `IndexError` at `hist.iloc[-2]`
(modelled as `none`), contradicting "for every OHLCV series, however
short". -/
theorem c9_counterexample :
    compute_entry_score [(⟨1, 2, 1, 1, 5⟩ : Candle)] = none := by
  have hh : histLasts ([1] : List ℚ) = none := by
    norm_num [histLasts, macdHist, ema, ilast]
  have he : emaLasts ([1] : List ℚ) = some (1, 1, 1) := by
    norm_num [emaLasts, ema, ilast]
  unfold compute_entry_score
  norm_num [he, hh]

/-- C9 (amended): `compute_entry_score` returns a result without an error on
every frame with at least 3 rows (shorter frames raise `IndexError` on the
MACD trailing reads, see the counterexample); undefined (NaN) indicator
values — RSI when `avg_loss = 0` or before its minimum period, ADX and the
Bollinger mid band before theirs, and an undefined rolling volume mean —
contribute zero points to the score rather than being treated as errors. -/
theorem c9_entry_score_totality (df : List Candle) (h : 3 ≤ df.length) :
    (compute_entry_score df).isSome = true ∧
    rsiSubScore none = 0 ∧
    adxSubScore none = 0 ∧
    (∀ p : ℚ, bbSubScore p none = 0) ∧
    (∀ vol_now : ℚ, volSubScore (volRatioOf none vol_now) = 0) := by
  refine ⟨compute_entry_score_isSome_of_length df h, rfl, rfl, fun p => rfl, fun v => ?_⟩
  norm_num [volRatioOf, volSubScore]

/-- Witness for C9 at a concrete 3-row frame. -/
theorem c9_entry_score_totality_witness :
    3 ≤ ([⟨1, 2, 1, 2, 5⟩, ⟨2, 3, 1, 3, 6⟩, ⟨3, 4, 2, 4, 7⟩] : List Candle).length ∧
    ((compute_entry_score [⟨1, 2, 1, 2, 5⟩, ⟨2, 3, 1, 3, 6⟩, ⟨3, 4, 2, 4, 7⟩]).isSome = true ∧
      rsiSubScore none = 0 ∧
      adxSubScore none = 0 ∧
      (∀ p : ℚ, bbSubScore p none = 0) ∧
      (∀ vol_now : ℚ, volSubScore (volRatioOf none vol_now) = 0)) :=
  ⟨by norm_num,
    c9_entry_score_totality [⟨1, 2, 1, 2, 5⟩, ⟨2, 3, 1, 3, 6⟩, ⟨3, 4, 2, 4, 7⟩] (by norm_num)⟩

/-- The EMA block contributes at most 25 points. -/
theorem emaSubScore_le (e9 e21 e50 : ℚ) : emaSubScore e9 e21 e50 ≤ 25 := by
  unfold emaSubScore
  split_ifs <;> omega

/-- The MACD block contributes at most 20 points. -/
theorem macdSubScore_le (a b c : ℚ) : macdSubScore a b c ≤ 20 := by
  unfold macdSubScore
  split_ifs <;> omega

/-- The RSI block contributes at most 15 points. -/
theorem rsiSubScore_le (r : Option ℚ) : rsiSubScore r ≤ 15 := by
  unfold rsiSubScore
  split_ifs <;> omega

/-- The ADX block contributes at most 15 points. -/
theorem adxSubScore_le (a : Option ℚ) : adxSubScore a ≤ 15 := by
  unfold adxSubScore
  split_ifs <;> omega

/-- The Bollinger block contributes at most 10 points. -/
theorem bbSubScore_le (p : ℚ) (m : Option ℚ) : bbSubScore p m ≤ 10 := by
  unfold bbSubScore
  split_ifs <;> omega

/-- The volume block contributes at most 10 points. -/
theorem volSubScore_le (r : ℚ) : volSubScore r ≤ 10 := by
  unfold volSubScore
  split_ifs <;> omega

/-- The bullish-candle block contributes at most 5 points. -/
theorem bullSubScore_le (c o : ℚ) : bullSubScore c o ≤ 5 := by
  unfold bullSubScore
  split_ifs <;> omega

/-- C4: every result of `compute_entry_score` has `score` equal to the sum
of the seven sub-scores, each bounded by its table maximum (EMA 25, MACD 20,
RSI 15, ADX 15, Bollinger 10, volume 10, bullish candle 5), the total within
`[0, 100]`, and `entry_recommended` true exactly when the score reaches
`ENTRY_SCORE_THRESHOLD`. -/
theorem c4_entry_score_bounds (df : List Candle)
    (h : (compute_entry_score df).isSome) :
    let r := (compute_entry_score df).get h
    r.score = r.sub_ema + r.sub_macd + r.sub_rsi + r.sub_adx
      + r.sub_bb + r.sub_vol + r.sub_bull ∧
    r.sub_ema ≤ 25 ∧ r.sub_macd ≤ 20 ∧ r.sub_rsi ≤ 15 ∧ r.sub_adx ≤ 15 ∧
    r.sub_bb ≤ 10 ∧ r.sub_vol ≤ 10 ∧ r.sub_bull ≤ 5 ∧
    r.score ≤ 100 ∧
    (r.entry_recommended = true ↔ entryScoreThreshold ≤ r.score) := by
  obtain ⟨r, hr⟩ := Option.isSome_iff_exists.mp h
  have hget : (compute_entry_score df).get h = r := by simp [hr]
  intro r'
  rw [show r' = r from hget]
  unfold compute_entry_score at hr
  simp only [Option.bind_eq_some, bind, Option.some.injEq] at hr
  obtain ⟨⟨e9, e21, e50⟩, hema, hr⟩ := hr
  obtain ⟨⟨hn, hp, hp2⟩, hhist, hr⟩ := hr
  obtain ⟨vrsi, hrsi, hr⟩ := hr
  obtain ⟨vadx, hadx, hr⟩ := hr
  obtain ⟨vbb, hbb, hr⟩ := hr
  obtain ⟨⟨vc, vo⟩, hpl, hr⟩ := hr
  obtain ⟨⟨va, vn⟩, hvl, hr⟩ := hr
  obtain ⟨vatr, hatr, hr⟩ := hr
  injection hr with hr
  subst hr
  refine ⟨rfl, emaSubScore_le e9 e21 e50, macdSubScore_le hn hp hp2,
    rsiSubScore_le vrsi, adxSubScore_le vadx, bbSubScore_le vc vbb,
    volSubScore_le _, bullSubScore_le vc vo, ?_, ?_⟩
  · have c1 := emaSubScore_le e9 e21 e50
    have c2 := macdSubScore_le hn hp hp2
    have c3 := rsiSubScore_le vrsi
    have c4 := adxSubScore_le vadx
    have c5 := bbSubScore_le vc vbb
    have c6 := volSubScore_le (volRatioOf va vn)
    have c7 := bullSubScore_le vc vo
    dsimp only
    omega
  · dsimp only
    simp [decide_eq_true_iff]

/-- Witness for C4 at a concrete 3-row frame; the result exists by
`compute_entry_score_isSome_of_length`. -/
theorem c4_entry_score_bounds_witness :
    ((compute_entry_score [⟨1, 2, 1, 2, 5⟩, ⟨2, 3, 1, 3, 6⟩, ⟨3, 4, 2, 4, 7⟩]).isSome = true) ∧
    (let r := (compute_entry_score [⟨1, 2, 1, 2, 5⟩, ⟨2, 3, 1, 3, 6⟩, ⟨3, 4, 2, 4, 7⟩]).get
        (compute_entry_score_isSome_of_length
          [⟨1, 2, 1, 2, 5⟩, ⟨2, 3, 1, 3, 6⟩, ⟨3, 4, 2, 4, 7⟩] (by norm_num))
     r.score = r.sub_ema + r.sub_macd + r.sub_rsi + r.sub_adx
       + r.sub_bb + r.sub_vol + r.sub_bull ∧
     r.sub_ema ≤ 25 ∧ r.sub_macd ≤ 20 ∧ r.sub_rsi ≤ 15 ∧ r.sub_adx ≤ 15 ∧
     r.sub_bb ≤ 10 ∧ r.sub_vol ≤ 10 ∧ r.sub_bull ≤ 5 ∧
     r.score ≤ 100 ∧
     (r.entry_recommended = true ↔ entryScoreThreshold ≤ r.score)) :=
  ⟨compute_entry_score_isSome_of_length _ (by norm_num),
    c4_entry_score_bounds [⟨1, 2, 1, 2, 5⟩, ⟨2, 3, 1, 3, 6⟩, ⟨3, 4, 2, 4, 7⟩]
      (compute_entry_score_isSome_of_length _ (by norm_num))⟩

end Btcauto
